import Mathlib

/-!
Verification of the model-serving subsystem of the FastAPI-Project
repository (`app/services/ml_service.py`, `app/api/routers/ml_model.py`,
`app/schemas/ml.py`, `app/models/prediction.py`, `app/models/user.py`).

The Python code is embedded shallowly:

* The mutable `MLService` instance becomes a record `MLService` of its
  instance attributes; every method takes the record and returns the
  (possibly updated) record, so mutation is explicit state passing.
* `datetime` timestamps are abstract `Nat` ticks; `isoformat` is their
  decimal rendering.  Python floats carrying random draws and metrics are
  modelled as exact rationals (`Rat`); this file never depends on binary
  rounding: the only float arithmetic in the source is
  `float(self.version) + 0.1` formatted with one decimal digit, which is
  exact at one decimal for every version string the program can produce.
* `np.random.rand()` is a stream of draws threaded explicitly (`Rng`).
* Python exceptions become `Except PyError`; `fastapi.HTTPException`
  becomes the constructor `PyError.httpException`.
* The SQLModel session is a record (`DBSession`) of committed rows,
  pending rows, a commit counter and a schedule of commit indices at
  which the storage engine raises; `add` / `commit` / `rollback` mirror
  the only session operations the service uses.
-/

/-- A Python exception value, restricted to the exceptions this code can
raise: `fastapi.HTTPException(status_code, detail)`, `ValueError`, and an
abstract storage-engine failure raised by `db.commit()`. -/
inductive PyError where
  | httpException (statusCode : Nat) (detail : String)
  | valueError (msg : String)
  | commitError
deriving DecidableEq, Repr

/-- Python `str(e)` for the exceptions above.  For `fastapi.HTTPException`,
`str(e)` is "code: detail"; the storage-engine exception text is opaque
and rendered by a fixed placeholder. -/
def errStr : PyError → String
  | .httpException code detail => toString code ++ ": " ++ detail
  | .valueError msg => msg
  | .commitError => "commit failed"

/-- Split a character list at every occurrence of the dot character,
mirroring what `float(s)` sees when scanning for the decimal point. -/
def splitDots : List Char → List (List Char)
  | [] => [[]]
  | c :: cs =>
    match splitDots cs with
    | [] => [[]]
    | g :: gs => if c = '.' then [] :: g :: gs else (c :: g) :: gs

/-- All characters are ASCII digits. -/
def allDigits (l : List Char) : Bool :=
  l.all Char.isDigit

/-- Decimal value of a digit list. -/
def digitsToNat (l : List Char) : Nat :=
  l.foldl (fun acc c => 10 * acc + (c.toNat - 48)) 0

/-- Python `float(s)` on the version strings this program handles,
returning the exact value as a numerator/denominator pair `(n, d)` with
`d` a power of ten (the value is `n / d`): a plain digit string, or
digits, one dot, digits (at least one digit in total) parses; anything
else — in particular a string with two dots such as "1.0.0" — raises
`ValueError`, modelled as `none`.  (Real `float` also accepts signs,
exponents and whitespace; no version string the program produces or
initialises takes those forms.) -/
def parsePyFloat (s : String) : Option (Nat × Nat) :=
  match splitDots s.data with
  | [a] =>
    if a ≠ [] ∧ allDigits a then some (digitsToNat a, 1) else none
  | [a, b] =>
    if (a ≠ [] ∨ b ≠ []) ∧ allDigits a ∧ allDigits b then
      some (digitsToNat a * 10 ^ b.length + digitsToNat b, 10 ^ b.length)
    else none
  | _ => none

/-- Computes `x + 0.1` on the exact value `x = n / d` with `d` a power of ten:
`n/d + 1/10 = (10*n + d) / (10*d)`.  Exact rationals stand in for binary
doubles; the difference is invisible at one formatted decimal for every
version value this program can hold. -/
def addTenth (p : Nat × Nat) : Nat × Nat :=
  (10 * p.1 + p.2, 10 * p.2)

/-- Python `f"{x:.1f}"` for the non-negative exact value `x = n / d`:
round `x * 10` to the nearest integer `m` (half up; the binary
half-even rounding agrees on every value the program formats, which is
exactly representable at one decimal) and print "m/10.m%10". -/
def formatFix1 (p : Nat × Nat) : String :=
  let m : Nat := (20 * p.1 + p.2) / (2 * p.2)
  toString (m / 10) ++ "." ++ toString (m % 10)

/-- Schema `ModelInput` (app/schemas/ml.py): `data` mapping plus optional
`parameters`; the mapping values are opaque to the service and modelled
as strings. -/
structure ModelInput where
  data : List (String × String)
  parameters : Option (List (String × String)) := none
deriving DecidableEq, Repr

/-- Schema `ModelOutput` (app/schemas/ml.py): prediction, confidence and the
metadata dict the service fills with the model version. -/
structure ModelOutput where
  prediction : Rat
  confidence : Rat
  metadata : List (String × String)
deriving DecidableEq, Repr

/-- Schema `ModelStatus` (app/schemas/ml.py): the serialized status record. -/
structure ModelStatus where
  model_name : String
  version : String
  status : String
  last_updated : String
  metrics : List (String × Rat)
deriving DecidableEq, Repr

/-- Schema `BatchPredictionRequest` (app/schemas/ml.py).  Pydantic enforces
`batch_size > 0` when present (`gt=0`), captured by `ValidBatchRequest`
below; the field itself is any optional natural number so that the
`or`-coercion in the service can be stated faithfully. -/
structure BatchPredictionRequest where
  inputs : List ModelInput
  batch_size : Option Nat := none
deriving DecidableEq, Repr

/-- The pydantic validation constraint on `BatchPredictionRequest`:
`batch_size`, when present, is strictly positive. -/
def ValidBatchRequest (req : BatchPredictionRequest) : Prop :=
  ∀ k, req.batch_size = some k → 0 < k

/-- Schema `BatchPredictionResponse` (app/schemas/ml.py). -/
structure BatchPredictionResponse where
  predictions : List ModelOutput
  processing_time : Rat
deriving DecidableEq, Repr

/-- A persisted `Prediction` row (app/models/prediction.py), with the
fields `batch_predict` fills. -/
structure PredictionRecord where
  input_data : ModelInput
  output_data : ModelOutput
  model_version : String
deriving DecidableEq, Repr

/-- The stream of `np.random.rand()` draws: an infinite tape and a cursor. -/
structure Rng where
  draws : Nat → Rat
  pos : Nat

/-- Take the next draw. -/
def Rng.next (r : Rng) : Rat × Rng :=
  (r.draws r.pos, { r with pos := r.pos + 1 })

/-- The SQLModel `Session` as `batch_predict` uses it: committed rows,
rows added but not yet committed, how many `commit()` calls have been
issued, and the set of commit indices at which the storage engine raises
(the external failure schedule). -/
structure DBSession where
  committed : List PredictionRecord
  pending : List PredictionRecord
  commitCount : Nat
  failAt : List Nat
deriving DecidableEq, Repr

/-- Session operation `db.add(row)`: stage a row in the session. -/
def DBSession.add (db : DBSession) (rec : PredictionRecord) : DBSession :=
  { db with pending := db.pending ++ [rec] }

/-- Stage a list of rows in order (the `for ... : db.add(...)` loop). -/
def DBSession.addAll (db : DBSession) (recs : List PredictionRecord) : DBSession :=
  { db with pending := db.pending ++ recs }

/-- Session operation `db.commit()`: if the storage engine raises at this commit index the
pending rows stay uncommitted and the exception propagates (`false`);
otherwise the pending rows are appended to the committed rows. -/
def DBSession.commit (db : DBSession) : Bool × DBSession :=
  if db.commitCount ∈ db.failAt then
    (false, { db with commitCount := db.commitCount + 1 })
  else
    (true, { db with committed := db.committed ++ db.pending, pending := [],
                     commitCount := db.commitCount + 1 })

/-- Session operation `db.rollback()`: discard the pending rows. -/
def DBSession.rollback (db : DBSession) : DBSession :=
  { db with pending := [] }

/-- The `MLService` instance state: its `__init__` attributes
(app/services/ml_service.py lines 38-47). -/
structure MLService where
  model_name : String
  version : String
  status : String
  last_updated : Nat
  metrics : List (String × Rat)
deriving DecidableEq, Repr

/-- Constructor `MLService.__init__` with the process start tick: `model_name =
"mock_model"`, `version = "1.0.0"`, `status = "ready"`, the two mock
metrics. -/
def MLService.init (now : Nat) : MLService :=
  { model_name := "mock_model"
    version := "1.0.0"
    status := "ready"
    last_updated := now
    metrics := [("accuracy", 95 / 100), ("latency", 1 / 10)] }

/-- Python `datetime.isoformat()` on the abstract tick. -/
def isoformat (t : Nat) : String :=
  toString t

/-- Method `MLService.get_status` (lines 49-61): read the five attributes into a
`ModelStatus`; the method body contains no assignment, so the returned
service state is the input state. -/
def MLService.get_status (s : MLService) : ModelStatus × MLService :=
  ({ model_name := s.model_name
     version := s.version
     status := s.status
     last_updated := isoformat s.last_updated
     metrics := s.metrics }, s)

/-- The body of the `try` block of `MLService.predict` (lines 75-84): two
draws, an output carrying the current version.  None of these operations
can raise, so the `except` branch of `predict` (line 85-86) is dead code. -/
def predictImpl (s : MLService) (r : Rng) : ModelOutput × Rng :=
  let (p, r1) := r.next
  let (c, r2) := r1.next
  ({ prediction := p, confidence := c,
     metadata := [("model_version", s.version)] }, r2)

/-- Method `MLService.predict` (lines 63-86).  The method reads `self.version`
and assigns no attribute, so the returned service state is the input
state; since the try body cannot raise, the result is always `.ok`. -/
def MLService.predict (s : MLService) (r : Rng) :
    Except PyError ModelOutput × MLService × Rng :=
  let (out, r2) := predictImpl s r
  (.ok out, s, r2)

/-- Method `MLService.update_model` (lines 140-163).  The try block evaluates
`float(self.version)`; when that raises `ValueError` (e.g. on "1.0.0")
no attribute has been assigned yet, the except branch sets
`status = "error"` and raises `HTTPException(500, ...)` (the real
exception text also quotes the offending string).  When the parse
succeeds the new one-decimal version, the new tick and `status = "ready"`
are assigned.  The third component records, in order, every value
assigned to `self.status` during the call (the observable status
transitions). -/
def MLService.update_model (s : MLService) (now : Nat) (_modelPath : String) :
    Except PyError Unit × MLService × List String :=
  match parsePyFloat s.version with
  | some q =>
    (.ok (),
     { s with version := formatFix1 (addTenth q), last_updated := now,
              status := "ready" },
     ["ready"])
  | none =>
    (.error (.httpException 500
        ("Model update failed: could not convert string to float: " ++ s.version)),
     { s with status := "error" },
     ["error"])

/-- The effective chunk size of `batch_predict` (line 110):
`request.batch_size or len(request.inputs)` — Python `or` falls through
on `None` and on `0`. -/
def effectiveBatchSize (req : BatchPredictionRequest) : Nat :=
  match req.batch_size with
  | none => req.inputs.length
  | some k => if k = 0 then req.inputs.length else k

/-- Fuel-driven worker for `chunks`; the fuel is an upper bound on the
list length, so the recursion is structural and kernel-reducible. -/
def chunksGo (k : Nat) : Nat → List ModelInput → List (List ModelInput)
  | _, [] => []
  | 0, _ :: _ => []
  | fuel + 1, x :: xs => ((x :: xs).take k) :: chunksGo k fuel ((x :: xs).drop k)

/-- The chunking of the loop `for i in range(0, len(inputs), batch_size)`
with slices `inputs[i : i + batch_size]` (lines 111-112), for a positive
chunk size (`batch_predict` raises before chunking when the effective
size is zero). -/
def chunks (k : Nat) (l : List ModelInput) : List (List ModelInput) :=
  chunksGo k l.length l

/-- The comprehension `[self.predict(input_data) for input_data in batch]`
(line 115).  `self.predict` always returns `.ok` (its try body cannot
raise), so the comprehension is total; the draw stream is threaded left
to right. -/
def predictBatchList (s : MLService) : List ModelInput → Rng → List ModelOutput × Rng
  | [], r => ([], r)
  | _x :: xs, r =>
    let (out, r1) := predictImpl s r
    let (outs, r2) := predictBatchList s xs r1
    (out :: outs, r2)

/-- The rows staged by the `for input_data, prediction in zip(batch,
batch_predictions)` loop (lines 119-125): one `Prediction` row per
(input, output) pair, carrying the current model version. -/
def mkRecords (version : String) : List ModelInput → List ModelOutput → List PredictionRecord
  | x :: xs, y :: ys =>
    { input_data := x, output_data := y, model_version := version } :: mkRecords version xs ys
  | _, _ => []

/-- The chunk loop of `batch_predict` (lines 111-126): per chunk, predict
every item, stage one row per pair, commit; a storage-engine exception at
`db.commit()` aborts the loop and propagates (handled by the enclosing
`except`). -/
def processChunks (s : MLService) :
    List (List ModelInput) → List ModelOutput → DBSession → Rng →
    Except PyError (List ModelOutput) × DBSession × Rng
  | [], preds, db, r => (.ok preds, db, r)
  | batch :: rest, preds, db, r =>
    let (outs, r1) := predictBatchList s batch r
    let db1 := db.addAll (mkRecords s.version batch outs)
    match db1.commit with
    | (true, db2) => processChunks s rest (preds ++ outs) db2 r1
    | (false, db2) => (.error .commitError, db2, r1)

/-- Method `MLService.batch_predict` (lines 88-138).  `elapsed` abstracts the
wall-clock difference `time.time() - start_time`.  When the effective
chunk size is zero (empty `inputs` with `batch_size` absent or zero),
`range(0, 0, 0)` raises `ValueError("range() arg 3 must not be zero")`
before any chunk is processed; any exception reaches the `except` block,
which rolls the session back and raises `HTTPException(500, "Batch
prediction failed: " + str(e))`.  The method reads but never assigns the
service attributes, so the service state is not returned. -/
def MLService.batch_predict (s : MLService) (req : BatchPredictionRequest)
    (db : DBSession) (elapsed : Rat) (r : Rng) :
    Except PyError BatchPredictionResponse × DBSession × Rng :=
  let k := effectiveBatchSize req
  if k = 0 then
    (.error (.httpException 500
        ("Batch prediction failed: " ++ errStr (.valueError "range() arg 3 must not be zero"))),
     db.rollback, r)
  else
    match processChunks s (chunks k req.inputs) [] db r with
    | (.ok preds, db1, r1) =>
      (.ok { predictions := preds, processing_time := elapsed }, db1, r1)
    | (.error e, db1, r1) =>
      (.error (.httpException 500 ("Batch prediction failed: " ++ errStr e)),
       db1.rollback, r1)

/-- A `User` row (app/models/user.py), restricted to the flags the ML
router consults. -/
structure User where
  is_active : Bool
  is_superuser : Bool
deriving DecidableEq, Repr

/-- Dependency `get_current_active_user` (app/api/dependencies.py lines 56-72): the
dependency every ML endpoint declares; it rejects an inactive caller with
HTTP 400.  (Token decoding and the user lookup are upstream of it and
out of scope: the argument is the already-authenticated user.) -/
def get_current_active_user (u : User) : Except PyError User :=
  if u.is_active then .ok u
  else .error (.httpException 400 "Inactive user")

/-- Endpoint `GET /status` (app/api/routers/ml_model.py lines 63-75): resolve the
active-user dependency, then return `ml_service.get_status()`.  No
superuser check appears in this handler. -/
def route_get_model_status (u : User) (s : MLService) : Except PyError ModelStatus :=
  match get_current_active_user u with
  | .error e => .error e
  | .ok _ => .ok (MLService.get_status s).1

/-- Endpoint `POST /predict` (lines 25-40): resolve the active-user dependency,
then return `ml_service.predict(input_data)`.  No status or superuser
check appears in this handler. -/
def route_predict (u : User) (s : MLService) (_input : ModelInput) (r : Rng) :
    Except PyError ModelOutput × MLService × Rng :=
  match get_current_active_user u with
  | .error e => (.error e, s, r)
  | .ok _ => MLService.predict s r

/-- Endpoint `POST /update` (lines 78-114): resolve the active-user dependency;
reject non-superusers with HTTP 403; otherwise write the upload to
`"temp_" + filename` and call `ml_service.update_model`.  The
`except Exception` in the handler also catches the `HTTPException` raised by the service
and re-wraps it as HTTP 500 `"Failed to update model: " + str(e)`. -/
def route_update_model (u : User) (s : MLService) (now : Nat) (filename : String) :
    Except PyError (String × String) × MLService :=
  match get_current_active_user u with
  | .error e => (.error e, s)
  | .ok _ =>
    if ¬ u.is_superuser then
      (.error (.httpException 403 "Not enough permissions to update the model"), s)
    else
      match MLService.update_model s now ("temp_" ++ filename) with
      | (.ok _, s1, _) => (.ok ("success", "Model updated successfully"), s1)
      | (.error e, s1, _) =>
        (.error (.httpException 500 ("Failed to update model: " ++ errStr e)), s1)

/-- Reference runner used only in theorem statements: the outputs, the
staged rows and the final draw cursor of a chunk sequence, computed
chunk by chunk with the draw stream threaded as in `processChunks`. -/
def runChunksSpec (s : MLService) :
    List (List ModelInput) → Rng → List ModelOutput × List PredictionRecord × Rng
  | [], r => ([], [], r)
  | c :: cs, r =>
    let (outs, r1) := predictBatchList s c r
    let (os, recs, r2) := runChunksSpec s cs r1
    (outs ++ os, mkRecords s.version c outs ++ recs, r2)

/-! ### Basic facts about the chunking loop -/

theorem chunksGo_nil (k fuel : Nat) : chunksGo k fuel [] = [] := by
  cases fuel <;> rfl

theorem chunksGo_succ (k fuel : Nat) (x : ModelInput) (xs : List ModelInput) :
    chunksGo k (fuel + 1) (x :: xs) =
      ((x :: xs).take k) :: chunksGo k fuel ((x :: xs).drop k) := rfl

theorem chunksGo_congr (k : Nat) (hk : 0 < k) :
    ∀ f1 f2 (l : List ModelInput), l.length ≤ f1 → l.length ≤ f2 →
      chunksGo k f1 l = chunksGo k f2 l := by
  intro f1
  induction f1 with
  | zero =>
    intro f2 l h1 _
    have hl : l = [] := List.eq_nil_of_length_eq_zero (Nat.le_zero.mp h1)
    subst hl
    simp [chunksGo_nil]
  | succ f ih =>
    intro f2 l h1 h2
    cases l with
    | nil => simp [chunksGo_nil]
    | cons x xs =>
      cases f2 with
      | zero => exact absurd h2 (by simp)
      | succ f2 =>
        rw [chunksGo_succ, chunksGo_succ]
        have hd : ((x :: xs).drop k).length = xs.length + 1 - k := by
          rw [List.length_drop, List.length_cons]
        have hlen : ((x :: xs).drop k).length ≤ f := by
          rw [hd]
          simp only [List.length_cons] at h1
          omega
        have hlen2 : ((x :: xs).drop k).length ≤ f2 := by
          rw [hd]
          simp only [List.length_cons] at h2
          omega
        exact congrArg _ (ih f2 _ hlen hlen2)

theorem chunks_nil (k : Nat) : chunks k [] = [] := rfl

theorem chunks_cons (k : Nat) (hk : 0 < k) (x : ModelInput) (xs : List ModelInput) :
    chunks k (x :: xs) = ((x :: xs).take k) :: chunks k ((x :: xs).drop k) := by
  unfold chunks
  rw [show (x :: xs).length = xs.length + 1 from rfl, chunksGo_succ]
  refine congrArg _ (chunksGo_congr k hk _ _ _ ?_ le_rfl)
  rw [List.length_drop, List.length_cons]
  omega

theorem chunks_join (k : Nat) (hk : 0 < k) :
    ∀ l : List ModelInput, (chunks k l).flatten = l := by
  have main : ∀ n (l : List ModelInput), l.length ≤ n → (chunks k l).flatten = l := by
    intro n
    induction n with
    | zero =>
      intro l h
      have : l = [] := List.eq_nil_of_length_eq_zero (Nat.le_zero.mp h)
      subst this
      simp [chunks_nil]
    | succ n ih =>
      intro l h
      cases l with
      | nil => simp [chunks_nil]
      | cons x xs =>
        rw [chunks_cons k hk, List.flatten_cons]
        rw [ih ((x :: xs).drop k) (by
          rw [List.length_drop, List.length_cons]
          simp only [List.length_cons] at h
          omega)]
        exact List.take_append_drop k (x :: xs)
  exact fun l => main l.length l le_rfl

theorem chunks_length (k : Nat) (hk : 0 < k) :
    ∀ l : List ModelInput, (chunks k l).length = (l.length + k - 1) / k := by
  have main : ∀ n (l : List ModelInput), l.length ≤ n →
      (chunks k l).length = (l.length + k - 1) / k := by
    intro n
    induction n with
    | zero =>
      intro l h
      have : l = [] := List.eq_nil_of_length_eq_zero (Nat.le_zero.mp h)
      subst this
      simp [chunks_nil]
      exact (Nat.div_eq_of_lt (by omega)).symm
    | succ n ih =>
      intro l h
      cases l with
      | nil =>
        simp [chunks_nil]
        exact (Nat.div_eq_of_lt (by omega)).symm
      | cons x xs =>
        rw [chunks_cons k hk, List.length_cons]
        rw [ih ((x :: xs).drop k) (by
          rw [List.length_drop, List.length_cons]
          simp only [List.length_cons] at h
          omega)]
        rw [List.length_drop, List.length_cons]
        rcases le_or_lt k (xs.length + 1) with hle | hlt
        · have h1 : xs.length + 1 - k + k - 1 = xs.length := by omega
          have h2 : xs.length + 1 + k - 1 = xs.length + k := by omega
          rw [h1, h2, Nat.add_div_right _ hk]
        · have h1 : xs.length + 1 - k = 0 := by omega
          have h2 : xs.length + 1 + k - 1 = xs.length + k := by omega
          rw [h1, h2, Nat.add_div_right _ hk]
          rw [Nat.div_eq_of_lt (show 0 + k - 1 < k by omega),
            Nat.div_eq_of_lt (show xs.length < k by omega)]
  exact fun l => main l.length l le_rfl

theorem chunks_mem_size (k : Nat) (hk : 0 < k) :
    ∀ l : List ModelInput, ∀ c ∈ chunks k l, c.length ≤ k ∧ c ≠ [] := by
  have main : ∀ n (l : List ModelInput), l.length ≤ n →
      ∀ c ∈ chunks k l, c.length ≤ k ∧ c ≠ [] := by
    intro n
    induction n with
    | zero =>
      intro l h c hc
      have : l = [] := List.eq_nil_of_length_eq_zero (Nat.le_zero.mp h)
      subst this
      simp [chunks_nil] at hc
    | succ n ih =>
      intro l h c hc
      cases l with
      | nil => simp [chunks_nil] at hc
      | cons x xs =>
        rw [chunks_cons k hk] at hc
        rcases List.mem_cons.mp hc with hc | hc
        · subst hc
          constructor
          · rw [List.length_take]
            exact min_le_left _ _
          · intro hnil
            have := congrArg List.length hnil
            simp [List.length_take] at this
            omega
        · exact ih ((x :: xs).drop k) (by
            rw [List.length_drop, List.length_cons]
            simp only [List.length_cons] at h
            omega) c hc
  exact fun l => main l.length l le_rfl

theorem chunks_dropLast_size (k : Nat) (hk : 0 < k) :
    ∀ l : List ModelInput, ∀ c ∈ (chunks k l).dropLast, c.length = k := by
  have main : ∀ n (l : List ModelInput), l.length ≤ n →
      ∀ c ∈ (chunks k l).dropLast, c.length = k := by
    intro n
    induction n with
    | zero =>
      intro l h c hc
      have : l = [] := List.eq_nil_of_length_eq_zero (Nat.le_zero.mp h)
      subst this
      simp [chunks_nil] at hc
    | succ n ih =>
      intro l h c hc
      cases l with
      | nil => simp [chunks_nil] at hc
      | cons x xs =>
        rw [chunks_cons k hk] at hc
        by_cases hrest : chunks k ((x :: xs).drop k) = []
        · rw [hrest] at hc
          simp at hc
        · rw [List.dropLast_cons_of_ne_nil hrest] at hc
          rcases List.mem_cons.mp hc with hc | hc
          · subst hc
            have hdrop : (x :: xs).drop k ≠ [] := by
              intro hd
              rw [show chunks k ((x :: xs).drop k) = chunks k [] from congrArg _ hd,
                chunks_nil] at hrest
              exact hrest rfl
            have hklen : k < (x :: xs).length := by
              by_contra hge
              push_neg at hge
              exact hdrop (List.drop_eq_nil_of_le hge)
            rw [List.length_take]
            omega
          · exact ih ((x :: xs).drop k) (by
              rw [List.length_drop, List.length_cons]
              simp only [List.length_cons] at h
              omega) c hc
  exact fun l => main l.length l le_rfl

/-! ### Facts about per-item prediction and the chunk loop -/

theorem predictBatchList_length (s : MLService) :
    ∀ (l : List ModelInput) (r : Rng), (predictBatchList s l r).1.length = l.length := by
  intro l
  induction l with
  | nil => intro r; rfl
  | cons x xs ih =>
    intro r
    simp only [predictBatchList, List.length_cons]
    rw [ih]

theorem predictBatchList_append (s : MLService) :
    ∀ (a b : List ModelInput) (r : Rng),
      predictBatchList s (a ++ b) r =
        ((predictBatchList s a r).1 ++ (predictBatchList s b (predictBatchList s a r).2).1,
         (predictBatchList s b (predictBatchList s a r).2).2) := by
  intro a
  induction a with
  | nil => intro b r; rfl
  | cons x xs ih =>
    intro b r
    simp only [List.cons_append, predictBatchList, List.append_eq]
    rw [ih]

theorem runChunksSpec_outs (s : MLService) :
    ∀ (cs : List (List ModelInput)) (r : Rng),
      (runChunksSpec s cs r).1 = (predictBatchList s cs.flatten r).1 ∧
      (runChunksSpec s cs r).2.2 = (predictBatchList s cs.flatten r).2 := by
  intro cs
  induction cs with
  | nil => intro r; exact ⟨rfl, rfl⟩
  | cons c cs ih =>
    intro r
    simp only [runChunksSpec, List.flatten_cons, predictBatchList_append]
    constructor
    · rw [(ih _).1]
    · rw [(ih _).2]

theorem runChunksSpec_cons (s : MLService) (c : List ModelInput)
    (cs : List (List ModelInput)) (r : Rng) :
    runChunksSpec s (c :: cs) r =
      ((predictBatchList s c r).1 ++ (runChunksSpec s cs (predictBatchList s c r).2).1,
       mkRecords s.version c (predictBatchList s c r).1 ++
         (runChunksSpec s cs (predictBatchList s c r).2).2.1,
       (runChunksSpec s cs (predictBatchList s c r).2).2.2) := rfl

/-- Success case of the chunk loop: whatever the failure schedule, when
the loop returns `.ok` the outputs are the accumulator followed by the
outputs of every chunk in order. -/
theorem processChunks_ok_preds (s : MLService) :
    ∀ (cs : List (List ModelInput)) (preds : List ModelOutput) (db : DBSession) (r : Rng)
      (out : List ModelOutput) (db1 : DBSession) (r1 : Rng),
      processChunks s cs preds db r = (.ok out, db1, r1) →
      out = preds ++ (runChunksSpec s cs r).1 := by
  intro cs
  induction cs with
  | nil =>
    intro preds db r out db1 r1 h
    simp only [processChunks] at h
    obtain ⟨h1, _, _⟩ := Prod.mk.injEq .. ▸ h
    cases h
    simp [runChunksSpec]
  | cons c cs ih =>
    intro preds db r out db1 r1 h
    simp only [processChunks] at h
    rcases hcm : (db.addAll (mkRecords s.version c (predictBatchList s c r).1)).commit with ⟨b, db2⟩
    rw [hcm] at h
    cases b with
    | true =>
      have := ih (preds ++ (predictBatchList s c r).1) db2 (predictBatchList s c r).2 out db1 r1 h
      rw [this, runChunksSpec_cons]
      simp
    | false =>
      simp at h

/-- Failure case of the chunk loop: with a fresh pending buffer, if the
first failing commit index (relative to the commit counter of the session) is
`i` and there are more than `i` chunks, the loop stops at chunk `i` with
the storage exception: the rows of chunks before `i` are committed, the
commit counter shows `i + 1` attempts, and the draw stream has advanced
over exactly the first `i + 1` chunks. -/
theorem processChunks_fail (s : MLService) :
    ∀ (cs : List (List ModelInput)) (i : Nat) (preds : List ModelOutput)
      (db : DBSession) (r : Rng),
      db.pending = [] →
      (∀ j, j < i → (db.commitCount + j) ∉ db.failAt) →
      (db.commitCount + i) ∈ db.failAt →
      i < cs.length →
      (processChunks s cs preds db r).1 = .error .commitError ∧
      (processChunks s cs preds db r).2.1.committed =
        db.committed ++ (runChunksSpec s (cs.take i) r).2.1 ∧
      (processChunks s cs preds db r).2.1.commitCount = db.commitCount + i + 1 ∧
      (processChunks s cs preds db r).2.2 = (runChunksSpec s (cs.take (i + 1)) r).2.2 := by
  intro cs
  induction cs with
  | nil =>
    intro i preds db r _ _ _ hlt
    exact absurd hlt (by simp)
  | cons c cs ih =>
    intro i preds db r hpend hbefore hfail hlt
    cases i with
    | zero =>
      have h0 : db.commitCount ∈ db.failAt := by simpa using hfail
      simp only [processChunks, DBSession.addAll, DBSession.commit]
      rw [if_pos h0]
      refine ⟨rfl, ?_, rfl, ?_⟩
      · simp [runChunksSpec]
      · simp [List.take_succ_cons, runChunksSpec_cons, runChunksSpec]
    | succ i =>
      have h0 : db.commitCount ∉ db.failAt := by
        have := hbefore 0 (Nat.succ_pos i)
        simpa using this
      have hstep :
          processChunks s (c :: cs) preds db r =
            processChunks s cs (preds ++ (predictBatchList s c r).1)
              { db with
                  committed :=
                    db.committed ++ mkRecords s.version c (predictBatchList s c r).1,
                  pending := [],
                  commitCount := db.commitCount + 1 }
              (predictBatchList s c r).2 := by
        simp only [processChunks, DBSession.addAll, DBSession.commit]
        rw [if_neg h0]
        rw [hpend]
        simp
      rw [hstep]
      have hrec := ih i (preds ++ (predictBatchList s c r).1)
        { db with
            committed := db.committed ++ mkRecords s.version c (predictBatchList s c r).1,
            pending := [],
            commitCount := db.commitCount + 1 }
        (predictBatchList s c r).2
        rfl
        (by
          intro j hj
          have := hbefore (j + 1) (by omega)
          simpa [Nat.add_assoc, Nat.add_comm 1 j] using this)
        (by
          have : db.commitCount + 1 + i = db.commitCount + (i + 1) := by omega
          rw [this]
          exact hfail)
        (by simpa using Nat.lt_of_succ_lt_succ hlt)
      refine ⟨hrec.1, ?_, ?_, ?_⟩
      · rw [hrec.2.1]
        simp only [List.take_succ_cons, runChunksSpec_cons]
        simp [List.append_assoc]
      · rw [hrec.2.2.1]
        show db.commitCount + 1 + i + 1 = db.commitCount + (i + 1) + 1
        omega
      · rw [hrec.2.2.2]
        simp only [List.take_succ_cons, runChunksSpec_cons]

/-- A chunk size of zero can only arise from an empty input list:
`batch_size` falls through (`None` or `0`) to `len(inputs)`. -/
theorem effectiveBatchSize_eq_zero (req : BatchPredictionRequest)
    (h : effectiveBatchSize req = 0) : req.inputs = [] := by
  unfold effectiveBatchSize at h
  cases hb : req.batch_size with
  | none =>
    rw [hb] at h
    exact List.eq_nil_of_length_eq_zero h
  | some k =>
    rw [hb] at h
    have h2 : (if k = 0 then req.inputs.length else k) = 0 := h
    by_cases hk : k = 0
    · rw [if_pos hk] at h2
      exact List.eq_nil_of_length_eq_zero h2
    · rw [if_neg hk] at h2
      exact absurd h2 hk

/-! ### Concrete fixtures used by witnesses and counterexamples -/

/-- The service as built at import time (`ml_service = MLService()`). -/
def initService : MLService :=
  MLService.init 0

/-- A deterministic draw stream: every draw is zero. -/
def rng0 : Rng :=
  ⟨fun _ => 0, 0⟩

/-- A fresh session with no scheduled commit failure. -/
def db0 : DBSession :=
  ⟨[], [], 0, []⟩

/-- A fresh session whose second commit (index 1) fails. -/
def dbFail1 : DBSession :=
  ⟨[], [], 0, [1]⟩

/-- Concrete inputs. -/
def inpA : ModelInput :=
  ⟨[("a", "1")], none⟩

/-- Concrete inputs. -/
def inpB : ModelInput :=
  ⟨[("b", "2")], none⟩

/-- Concrete inputs. -/
def inpC : ModelInput :=
  ⟨[("c", "3")], none⟩

/-! ### Claims -/

/-- C1 (amended): `predict` never consults `ModelState.status`; for every
service state — including status "updating" or "error" — and every draw
stream it returns a `PredictionOutput` successfully (the mock try body
cannot raise), rather than failing with an inference error. -/
theorem C1_predict_ignores_status (s : MLService) (r : Rng) :
    (MLService.predict s r).1 = .ok (predictImpl s r).1 := rfl

/-- C1 counterexample: with the model state in status "updating" (so
status ≠ ready), `predict` succeeds and returns a prediction output, so
the claim that it must fail with `InferenceError` is false on the code. -/
theorem C1_predict_updating_succeeds :
    ({ MLService.init 0 with status := "updating" } : MLService).status ≠ "ready" ∧
    (MLService.predict { MLService.init 0 with status := "updating" } rng0).1 =
      .ok { prediction := 0, confidence := 0,
            metadata := [("model_version", "1.0.0")] } :=
  ⟨by decide, rfl⟩

/-- C2: if persistence fails on chunk `i` of a multi-chunk batch (the
first failing commit of the storage engine is the `i`-th, and there are more
than `i` chunks), the whole `batch_predict` call fails with HTTP 500;
the rows of every chunk before `i` remain committed, no row of chunk `i`
or of any later chunk is persisted (the committed rows are exactly the
old ones plus the rows of the first `i` chunks, and the pending buffer is
rolled back), and no chunk after `i` is processed (exactly `i + 1`
commits were attempted and the draw stream advanced over exactly the
first `i + 1` chunks). -/
theorem C2_chunk_failure_atomicity
    (s : MLService) (req : BatchPredictionRequest) (db : DBSession)
    (elapsed : Rat) (r : Rng) (i : Nat)
    (hpend : db.pending = []) (hcc : db.commitCount = 0)
    (hbefore : ∀ j, j < i → j ∉ db.failAt) (hfail : i ∈ db.failAt)
    (hlt : i < (chunks (effectiveBatchSize req) req.inputs).length) :
    (MLService.batch_predict s req db elapsed r).1 =
      .error (.httpException 500 "Batch prediction failed: commit failed") ∧
    (MLService.batch_predict s req db elapsed r).2.1.committed =
      db.committed ++
        (runChunksSpec s ((chunks (effectiveBatchSize req) req.inputs).take i) r).2.1 ∧
    (MLService.batch_predict s req db elapsed r).2.1.pending = [] ∧
    (MLService.batch_predict s req db elapsed r).2.1.commitCount = i + 1 ∧
    (MLService.batch_predict s req db elapsed r).2.2 =
      (runChunksSpec s ((chunks (effectiveBatchSize req) req.inputs).take (i + 1)) r).2.2 := by
  have hk : effectiveBatchSize req ≠ 0 := by
    intro h0
    rw [h0, effectiveBatchSize_eq_zero req h0] at hlt
    exact absurd hlt (by simp [chunks_nil])
  have hfail' := processChunks_fail s (chunks (effectiveBatchSize req) req.inputs) i [] db r
    hpend (by rw [hcc]; simpa using hbefore) (by rw [hcc]; simpa using hfail) hlt
  rcases hpc : processChunks s (chunks (effectiveBatchSize req) req.inputs) [] db r
    with ⟨res, db1, r1⟩
  rw [hpc] at hfail'
  obtain ⟨hres, hcom, hcnt, hrng⟩ := hfail'
  simp only at hres hcom hcnt hrng
  subst hres
  have hbp :
      MLService.batch_predict s req db elapsed r =
        (.error (.httpException 500 ("Batch prediction failed: " ++ errStr .commitError)),
         db1.rollback, r1) := by
    unfold MLService.batch_predict
    rw [if_neg hk, hpc]
  rw [hbp]
  refine ⟨?_, ?_, rfl, ?_, ?_⟩
  · rfl
  · simpa [DBSession.rollback] using hcom
  · simpa [DBSession.rollback, hcc] using hcnt
  · exact hrng

/-- C2 witness: three inputs with `batch_size = 1` against a session
whose second commit fails: chunk 0 is committed, the call errors, and
only two commits were attempted. -/
theorem C2_chunk_failure_atomicity_witness :
    (MLService.batch_predict initService ⟨[inpA, inpB, inpC], some 1⟩ dbFail1 0 rng0).1 =
      .error (.httpException 500 "Batch prediction failed: commit failed") ∧
    (MLService.batch_predict initService ⟨[inpA, inpB, inpC], some 1⟩ dbFail1 0 rng0).2.1.committed =
      dbFail1.committed ++
        (runChunksSpec initService
          ((chunks (effectiveBatchSize ⟨[inpA, inpB, inpC], some 1⟩) [inpA, inpB, inpC]).take 1)
          rng0).2.1 ∧
    (MLService.batch_predict initService ⟨[inpA, inpB, inpC], some 1⟩ dbFail1 0 rng0).2.1.pending = [] ∧
    (MLService.batch_predict initService ⟨[inpA, inpB, inpC], some 1⟩ dbFail1 0 rng0).2.1.commitCount = 2 ∧
    (MLService.batch_predict initService ⟨[inpA, inpB, inpC], some 1⟩ dbFail1 0 rng0).2.2 =
      (runChunksSpec initService
        ((chunks (effectiveBatchSize ⟨[inpA, inpB, inpC], some 1⟩) [inpA, inpB, inpC]).take 2)
        rng0).2.2 :=
  C2_chunk_failure_atomicity initService ⟨[inpA, inpB, inpC], some 1⟩ dbFail1 0 rng0 1
    rfl rfl
    (by
      intro j hj
      have hj0 : j = 0 := by omega
      subst hj0
      decide)
    (by decide)
    (by decide)

/-- Any service state whose version is the shipped "1.0.0" is stuck:
`update_model` always fails on it (Python `float("1.0.0")` raises
`ValueError`) and leaves the version unchanged, so no successful update
— and hence no version increase — is ever possible from the state the
program actually constructs. -/
theorem update_model_stuck (s : MLService) (hs : s.version = "1.0.0")
    (now : Nat) (p : String) :
    (MLService.update_model s now p).1 =
      .error (.httpException 500
        ("Model update failed: could not convert string to float: " ++ s.version)) ∧
    (MLService.update_model s now p).2.1.version = "1.0.0" ∧
    (MLService.update_model s now p).2.1.status = "error" := by
  have hparse : parsePyFloat s.version = none := by
    rw [hs]
    decide
  unfold MLService.update_model
  rw [hparse]
  exact ⟨rfl, hs, rfl⟩

/-- C3 (code bug): the fixed version increment of the spec can never run.
Evaluating `update_model` on the state built by `__init__` (version
"1.0.0"): `float("1.0.0")` raises `ValueError`, the call fails with
HTTP 500, the version stays "1.0.0" and the status flips to "error" —
so from the shipped initial state no `update_model` call can ever
succeed and the version can never increase.  Had the initial version
parsed (e.g. "1.0"), the call would succeed and bump the version by the
fixed 0.1 increment to "1.1", which is the documented intent. -/
theorem C3_update_never_succeeds_from_init :
    (MLService.update_model (MLService.init 0) 1 ("temp_model.bin")).1 =
      .error (.httpException 500
        "Model update failed: could not convert string to float: 1.0.0") ∧
    (MLService.update_model (MLService.init 0) 1 ("temp_model.bin")).2.1.version = "1.0.0" ∧
    (MLService.update_model (MLService.init 0) 1 ("temp_model.bin")).2.1.status = "error" ∧
    (MLService.update_model { MLService.init 0 with version := "1.0" } 1 ("temp_model.bin")).1 =
      .ok () ∧
    (MLService.update_model { MLService.init 0 with version := "1.0" } 1 ("temp_model.bin")).2.1.version =
      "1.1" := by
  exact ⟨rfl, by decide, by decide, rfl, by decide⟩

/-- C4: for every positive chunk size `k`, chunking yields
`ceil(N/k) = (N + k - 1) / k` contiguous chunks in original order
(their concatenation is the input list), each non-empty and of size at
most `k`, and all but possibly the last of size exactly `k`; on
`[i1, i2, i3]` with `batch_size = 2` the chunks are `[i1, i2]`, `[i3]`
and a successful `batch_predict` issues exactly two commits. -/
theorem C4_chunking_shape
    (s : MLService) (k : Nat) (l : List ModelInput)
    (i1 i2 i3 : ModelInput) (elapsed : Rat) (r : Rng) (hk : 0 < k) :
    (chunks k l).length = (l.length + k - 1) / k ∧
    (chunks k l).flatten = l ∧
    ((chunks k l).all (fun c => decide (0 < c.length ∧ c.length ≤ k)) = true) ∧
    ((chunks k l).dropLast.all (fun c => c.length == k) = true) ∧
    chunks 2 [i1, i2, i3] = [[i1, i2], [i3]] ∧
    (MLService.batch_predict s ⟨[i1, i2, i3], some 2⟩ db0 elapsed r).2.1.commitCount = 2 ∧
    (MLService.batch_predict s ⟨[i1, i2, i3], some 2⟩ db0 elapsed r).1.isOk = true := by
  refine ⟨chunks_length k hk l, chunks_join k hk l, ?_, ?_, rfl, rfl, rfl⟩
  · rw [List.all_eq_true]
    intro c hc
    obtain ⟨hle, hne⟩ := chunks_mem_size k hk l c hc
    exact decide_eq_true ⟨List.length_pos.mpr hne, hle⟩
  · rw [List.all_eq_true]
    intro c hc
    exact beq_iff_eq.mpr (chunks_dropLast_size k hk l c hc)

/-- C4 witness: the shape facts instantiated at chunk size 2 on the
three concrete inputs. -/
theorem C4_chunking_shape_witness :
    (chunks 2 [inpA, inpB, inpC]).length = (([inpA, inpB, inpC] : List ModelInput).length + 2 - 1) / 2 ∧
    (chunks 2 [inpA, inpB, inpC]).flatten = [inpA, inpB, inpC] ∧
    ((chunks 2 [inpA, inpB, inpC]).all (fun c => decide (0 < c.length ∧ c.length ≤ 2)) = true) ∧
    ((chunks 2 [inpA, inpB, inpC]).dropLast.all (fun c => c.length == 2) = true) ∧
    chunks 2 [inpA, inpB, inpC] = [[inpA, inpB], [inpC]] ∧
    (MLService.batch_predict initService ⟨[inpA, inpB, inpC], some 2⟩ db0 0 rng0).2.1.commitCount = 2 ∧
    (MLService.batch_predict initService ⟨[inpA, inpB, inpC], some 2⟩ db0 0 rng0).1.isOk = true :=
  C4_chunking_shape initService 2 [inpA, inpB, inpC] inpA inpB inpC 0 rng0 (by decide)

/-- C5: whenever `batch_predict` succeeds, the predictions of the response
are exactly the per-input outputs of the flat (un-chunked) left-to-right
prediction pass over `inputs` — the `j`-th prediction is the output
produced for the `j`-th input — and there are exactly as many
predictions as inputs. -/
theorem C5_batch_order_length
    (s : MLService) (req : BatchPredictionRequest) (db : DBSession)
    (elapsed : Rat) (r : Rng)
    (h : (MLService.batch_predict s req db elapsed r).1.isOk = true) :
    (MLService.batch_predict s req db elapsed r).1.map (fun resp => resp.predictions) =
      .ok (predictBatchList s req.inputs r).1 ∧
    (MLService.batch_predict s req db elapsed r).1.map (fun resp => resp.predictions.length) =
      .ok req.inputs.length := by
  by_cases hk : effectiveBatchSize req = 0
  · exfalso
    unfold MLService.batch_predict at h
    rw [if_pos hk] at h
    simp [Except.isOk, Except.toBool] at h
  · have hkpos : 0 < effectiveBatchSize req := Nat.pos_of_ne_zero hk
    rcases hpc : processChunks s (chunks (effectiveBatchSize req) req.inputs) [] db r
      with ⟨res, db1, r1⟩
    have hbp :
        MLService.batch_predict s req db elapsed r =
          match (res, db1, r1) with
          | (.ok preds, db1, r1) =>
            (.ok { predictions := preds, processing_time := elapsed }, db1, r1)
          | (.error e, db1, r1) =>
            (.error (.httpException 500 ("Batch prediction failed: " ++ errStr e)),
             db1.rollback, r1) := by
      unfold MLService.batch_predict
      rw [if_neg hk, hpc]
    cases res with
    | error e =>
      rw [hbp] at h
      simp [Except.isOk, Except.toBool] at h
    | ok preds =>
      have hpreds : preds = [] ++ (runChunksSpec s (chunks (effectiveBatchSize req) req.inputs) r).1 :=
        processChunks_ok_preds s _ [] db r preds db1 r1 hpc
      rw [List.nil_append] at hpreds
      have hflat : preds = (predictBatchList s req.inputs r).1 := by
        rw [hpreds, (runChunksSpec_outs s _ r).1,
          chunks_join (effectiveBatchSize req) hkpos req.inputs]
      rw [hbp]
      constructor
      · simp [Except.map, hflat]
      · simp [Except.map, hflat, predictBatchList_length]

/-- C5 witness: a concrete successful call on one input. -/
theorem C5_batch_order_length_witness :
    (MLService.batch_predict initService ⟨[inpA], none⟩ db0 0 rng0).1.map
        (fun resp => resp.predictions) =
      .ok (predictBatchList initService [inpA] rng0).1 ∧
    (MLService.batch_predict initService ⟨[inpA], none⟩ db0 0 rng0).1.map
        (fun resp => resp.predictions.length) =
      .ok ([inpA] : List ModelInput).length :=
  C5_batch_order_length initService ⟨[inpA], none⟩ db0 0 rng0 rfl

/-- C6 (amended): whenever `update_model` fails (the stored version does
not parse as a float), it sets `status` to "error" and propagates an
HTTP 500 error carrying the failure reason to the caller; but the model
does NOT become unusable for predictions — `predict` on the resulting
"error" state still succeeds, because it never consults the status. -/
theorem C6_update_failure_sets_error_and_raises
    (s : MLService) (now : Nat) (p : String) (r : Rng)
    (h : parsePyFloat s.version = none) :
    MLService.update_model s now p =
      (.error (.httpException 500
         ("Model update failed: could not convert string to float: " ++ s.version)),
       { s with status := "error" }, ["error"]) ∧
    (MLService.predict { s with status := "error" } r).1 =
      .ok (predictImpl { s with status := "error" } r).1 := by
  constructor
  · unfold MLService.update_model
    rw [h]
  · rfl

/-- C6 witness: the failure path evaluated on the shipped initial state
(version "1.0.0" does not parse). -/
theorem C6_update_failure_witness :
    MLService.update_model (MLService.init 0) 1 ("m.bin") =
      (.error (.httpException 500
         ("Model update failed: could not convert string to float: " ++
           (MLService.init 0).version)),
       { MLService.init 0 with status := "error" }, ["error"]) ∧
    (MLService.predict { MLService.init 0 with status := "error" } rng0).1 =
      .ok (predictImpl { MLService.init 0 with status := "error" } rng0).1 :=
  C6_update_failure_sets_error_and_raises (MLService.init 0) 1 ("m.bin") rng0 (by decide)

/-- C6 counterexample: after a failed update the state is "error", yet a
prediction on that state succeeds — refuting the claim that the model
"remains unusable for predictions until a later updateModel succeeds". -/
theorem C6_error_state_still_predicts :
    (MLService.update_model (MLService.init 0) 1 ("m.bin")).2.1.status = "error" ∧
    (MLService.predict (MLService.update_model (MLService.init 0) 1 ("m.bin")).2.1 rng0).1.isOk =
      true :=
  ⟨by decide, rfl⟩

/-- C7 (amended): `update_model` never assigns the status "updating": in
every call the only status assignment is the final one — "ready" on
success or "error" on failure — so no intermediate "updating" state is
ever observable during an update. -/
theorem C7_no_updating_transition (s : MLService) (now : Nat) (p : String) :
    ((MLService.update_model s now p).2.2 = ["ready"] ∨
      (MLService.update_model s now p).2.2 = ["error"]) ∧
    "updating" ∉ (MLService.update_model s now p).2.2 ∧
    (MLService.update_model s now p).2.1.status ≠ "updating" := by
  unfold MLService.update_model
  cases hp : parsePyFloat s.version with
  | some q =>
    refine ⟨Or.inl rfl, ?_, ?_⟩
    · simp only [List.mem_singleton]
      decide
    · show "ready" ≠ "updating"
      decide
  | none =>
    refine ⟨Or.inr rfl, ?_, ?_⟩
    · simp only [List.mem_singleton]
      decide
    · show "error" ≠ "updating"
      decide

/-- C7 counterexample: neither a failing update (from the shipped state)
nor a succeeding one (version "1.0") ever assigns status "updating",
refuting the claim that every update first transitions to "updating". -/
theorem C7_updating_never_assigned :
    "updating" ∉ (MLService.update_model (MLService.init 0) 1 ("m.bin")).2.2 ∧
    "updating" ∉
      (MLService.update_model { MLService.init 0 with version := "1.0" } 1 ("m.bin")).2.2 := by
  constructor <;> decide

/-- C8 (amended): the update endpoint requires the superuser flag — an
active non-superuser caller is rejected with HTTP 403 and the service
state is untouched — but the status query does NOT require elevation:
any authenticated active caller receives the status record. -/
theorem C8_update_needs_superuser_status_does_not
    (u : User) (s : MLService) (now : Nat) (f : String)
    (ha : u.is_active = true) (hns : u.is_superuser = false) :
    route_update_model u s now f =
      (.error (.httpException 403 "Not enough permissions to update the model"), s) ∧
    route_get_model_status u s = .ok (MLService.get_status s).1 := by
  constructor
  · unfold route_update_model get_current_active_user
    rw [ha]
    simp [hns]
  · unfold route_get_model_status get_current_active_user
    rw [ha]
    simp

/-- C8 witness: the authorization behaviour evaluated for a concrete
active non-superuser caller. -/
theorem C8_authorization_witness :
    route_update_model ⟨true, false⟩ (MLService.init 0) 1 ("m.bin") =
      (.error (.httpException 403 "Not enough permissions to update the model"),
       MLService.init 0) ∧
    route_get_model_status ⟨true, false⟩ (MLService.init 0) =
      .ok (MLService.get_status (MLService.init 0)).1 :=
  C8_update_needs_superuser_status_does_not ⟨true, false⟩ (MLService.init 0) 1 ("m.bin")
    rfl rfl

/-- C8 counterexample: a caller without the superuser flag successfully
queries the model status, refuting the claim that the status query
requires the elevated privilege. -/
theorem C8_status_open_to_non_superuser :
    (⟨true, false⟩ : User).is_superuser = false ∧
    route_get_model_status ⟨true, false⟩ (MLService.init 0) =
      .ok (MLService.get_status (MLService.init 0)).1 :=
  ⟨rfl, rfl⟩

/-- C9: `predict` returns the service state unchanged (its only use of
shared state is reading it), `get_status` also leaves the state
unchanged, and two status queries with no intervening update — also
across an intervening predict — return identical records, in particular
identical `version` and `status`. -/
theorem C9_predict_pure_status_idempotent (s : MLService) (r : Rng) :
    (MLService.predict s r).2.1 = s ∧
    (MLService.get_status s).2 = s ∧
    (MLService.get_status ((MLService.get_status s).2)).1 = (MLService.get_status s).1 ∧
    (MLService.get_status ((MLService.get_status s).2)).1.version =
      (MLService.get_status s).1.version ∧
    (MLService.get_status ((MLService.get_status s).2)).1.status =
      (MLService.get_status s).1.status ∧
    (MLService.get_status ((MLService.predict s r).2.1)).1 = (MLService.get_status s).1 :=
  ⟨rfl, rfl, rfl, rfl, rfl, rfl⟩

/-- C10: on a request with empty `inputs` and absent `batch_size` the
effective chunk size resolves to `0 or len([]) = 0`, `range(0, 0, 0)`
raises `ValueError`, and `batch_predict` fails with HTTP 500 instead of
returning an empty successful response; the committed rows of the session
are untouched and the pending buffer is rolled back. -/
theorem C10_empty_batch_raises (s : MLService) (db : DBSession) (elapsed : Rat) (r : Rng) :
    effectiveBatchSize { inputs := [], batch_size := none } = 0 ∧
    (MLService.batch_predict s { inputs := [], batch_size := none } db elapsed r).1 =
      .error (.httpException 500 "Batch prediction failed: range() arg 3 must not be zero") ∧
    (MLService.batch_predict s { inputs := [], batch_size := none } db elapsed r).2.1.committed =
      db.committed ∧
    (MLService.batch_predict s { inputs := [], batch_size := none } db elapsed r).2.1.pending =
      [] := by
  refine ⟨rfl, ?_, rfl, rfl⟩
  rfl
